import Mathlib

/-!
Verification of the voice-chat turn-taking core.

Shallow embedding of the silence-detection engine (`lib/audioRecorder.ts`,
class `AudioRecorder`) and the conversation-turn orchestrator
(`components/VoiceChatDigitalTwin.tsx`) of the digital-twin voice-chat
repository, together with proofs of the specified invariants and scenarios.

Volumes are modelled as rationals (the source computes them as an average of
byte-valued frequency bins); audio blobs are modelled as byte lists, and a
chunk buffer as a list of byte lists.  Timer/interval/stream/context handles
are modelled by presence flags, and the effects the source performs on them
(clearing, stopping, closing) are recorded explicitly so that idempotency
claims are about real actions, not just final states.
-/

namespace DigitalTwin

/-! ## Silence detector (AudioRecorder.startVolumeMonitoring)

Per-session detector state: `counter` is the closure-local
`consecutiveSilenceChecks`, `hasSound` is `this.hasSoundDetected`,
`triggered` is `this.silenceTriggered`.  All three are (re)set to
zero/false when a recording session starts. -/

structure DetState where
  counter : Nat
  hasSound : Bool
  triggered : Bool
deriving Repr, DecidableEq

/-- Detector state at the start of a recording session
(`startRecording` sets `hasSoundDetected = false`, `silenceTriggered = false`;
`consecutiveSilenceChecks` starts at 0 in `startVolumeMonitoring`). -/
def detReset : DetState := ⟨0, false, false⟩

/-- Number of checks: `silenceChecksNeeded = Math.ceil(silenceDuration / checkInterval)` with
`checkInterval = 100` (ms). -/
def silenceChecksNeeded (silenceDuration : ℚ) : Nat :=
  (Int.ceil (silenceDuration / 100)).toNat

/-- One tick of the `setInterval` body in `startVolumeMonitoring`, for a
recording session (`isRecording = true`).  Parameters: `st` is
`silenceThreshold`; `needed` is `silenceChecksNeeded`; `hasCb` is whether
`onSilenceDetected` is non-null; `chunks` is whether `audioChunks` is
non-empty at this tick.  Returns the next state and whether
`onSilenceDetected` was invoked on this tick. -/
def detStep (st : ℚ) (needed : Nat) (hasCb chunks : Bool) (s : DetState)
    (volume : ℚ) : DetState × Bool :=
  -- const soundThreshold = this.silenceThreshold + 5
  let soundThreshold := st + 5
  -- if (volume >= soundThreshold) { hasSoundDetected = true; consecutiveSilenceChecks = 0 }
  let s :=
    if volume ≥ soundThreshold then { s with hasSound := true, counter := 0 } else s
  -- if (!this.hasSoundDetected) return
  if ¬ s.hasSound then (s, false)
  -- if (volume < this.silenceThreshold)
  else if volume < st then
    let c := s.counter + 1
    -- if (consecutiveSilenceChecks >= silenceChecksNeeded && !this.silenceTriggered)
    if c ≥ needed ∧ ¬ s.triggered then
      -- if (this.onSilenceDetected && this.audioChunks.length > 0) { trigger }
      if hasCb ∧ chunks then ({ s with counter := 0, triggered := true }, true)
      else ({ s with counter := 0 }, false)
    else ({ s with counter := c }, false)
  -- else { if (consecutiveSilenceChecks > 0) consecutiveSilenceChecks = 0 }
  else if s.counter > 0 then ({ s with counter := 0 }, false)
  else (s, false)

/-- Run the detector over a list of volume samples, counting how many times
`onSilenceDetected` fires. -/
def detRun (st : ℚ) (needed : Nat) (hasCb chunks : Bool) (s : DetState) :
    List ℚ → DetState × Nat
  | [] => (s, 0)
  | v :: vs =>
    let (s', fired) := detStep st needed hasCb chunks s v
    let (sf, n) := detRun st needed hasCb chunks s' vs
    (sf, (if fired then 1 else 0) + n)

/-- Sample sequence of spec Scenario A. -/
def scenarioA : List ℚ := [5, 5, 30, 30, 30, 5, 5, 5, 5, 5, 5, 5, 5]

/-! ### Detector lemmas -/

/-- A sample below the sound threshold in a session that has not yet heard
sound is a no-op (the early return at `if (!this.hasSoundDetected) return`). -/
theorem detStep_noSound (st : ℚ) (needed : Nat) (cb ch : Bool) (s : DetState)
    (v : ℚ) (hs : s.hasSound = false) (hv : v < st + 5) :
    detStep st needed cb ch s v = (s, false) := by
  simp [detStep, not_le.2 hv, hs]

/-- Running the detector on samples that all stay below the sound threshold,
from a state that has not heard sound, emits nothing and still has not heard
sound. -/
theorem detRun_noSound (st : ℚ) (needed : Nat) (cb ch : Bool) (s : DetState)
    (xs : List ℚ) (hs : s.hasSound = false) (hxs : ∀ v ∈ xs, v < st + 5) :
    detRun st needed cb ch s xs = (s, 0) := by
  induction xs with
  | nil => rfl
  | cons v vs ih =>
    have hv : v < st + 5 := hxs v (List.mem_cons_self ..)
    simp [detRun, detStep_noSound st needed cb ch s v hs hv,
      ih fun w hw => hxs w (List.mem_cons_of_mem _ hw)]

/-- Once `silenceTriggered` is set it stays set and no further signal is
emitted by a step. -/
theorem detStep_triggered (st : ℚ) (needed : Nat) (cb ch : Bool) (s : DetState)
    (v : ℚ) (hs : s.triggered = true) :
    (detStep st needed cb ch s v).1.triggered = true ∧
      (detStep st needed cb ch s v).2 = false := by
  simp only [detStep, hs]
  split_ifs <;> simp_all

/-- The flag `triggered` is monotone along a step. -/
theorem detStep_triggered_mono (st : ℚ) (needed : Nat) (cb ch : Bool)
    (s : DetState) (v : ℚ) (hs : s.triggered = true) :
    (detStep st needed cb ch s v).1.triggered = true :=
  (detStep_triggered st needed cb ch s v hs).1

/-- A step emits a signal only by setting `triggered`. -/
theorem detStep_fired_triggered (st : ℚ) (needed : Nat) (cb ch : Bool)
    (s : DetState) (v : ℚ) (hf : (detStep st needed cb ch s v).2 = true) :
    (detStep st needed cb ch s v).1.triggered = true := by
  simp only [detStep] at hf ⊢
  split_ifs at hf ⊢ <;> simp_all

/-- From a state with `triggered` set, a run emits no signals. -/
theorem detRun_triggered (st : ℚ) (needed : Nat) (cb ch : Bool) (s : DetState)
    (xs : List ℚ) (hs : s.triggered = true) :
    (detRun st needed cb ch s xs).2 = 0 := by
  induction xs generalizing s with
  | nil => rfl
  | cons v vs ih =>
    have h := detStep_triggered st needed cb ch s v hs
    simp [detRun, h.2, ih _ h.1]

/-- Signal-count bound for a run: zero if already triggered, at most one
otherwise. -/
theorem detRun_count_le (st : ℚ) (needed : Nat) (cb ch : Bool) (s : DetState)
    (xs : List ℚ) :
    (detRun st needed cb ch s xs).2 ≤ if s.triggered then 0 else 1 := by
  induction xs generalizing s with
  | nil => simp [detRun]
  | cons v vs ih =>
    by_cases hs : s.triggered = true
    · simp [detRun_triggered st needed cb ch s (v :: vs) hs, hs]
    · simp only [Bool.not_eq_true] at hs
      rcases hf : (detStep st needed cb ch s v).2 with _ | _
      · have := ih (detStep st needed cb ch s v).1
        simp only [detRun, hf, hs] at this ⊢
        simp only [Bool.false_eq_true, if_false]
        split_ifs at this <;> omega
      · have htr := detStep_fired_triggered st needed cb ch s v hf
        have h0 := detRun_triggered st needed cb ch
          (detStep st needed cb ch s v).1 vs htr
        simp [detRun, hf, h0, hs]

/-! ### Claim theorems for the detector -/

/-- C1.  Sound-first invariant: in one recording session, if every sample
before the first sample that reaches `soundThreshold = silenceThreshold + 5`
is below `silenceThreshold`, then no `onSilenceDetected` signal is emitted
before that first loud sample; in particular a session whose samples all stay
below `soundThreshold` never emits a signal. -/
theorem c1_sound_first (st : ℚ) (needed : Nat) (cb ch : Bool) (xs : List ℚ)
    (h : ∀ v ∈ xs.takeWhile (fun v => decide (v < st + 5)), v < st) :
    (detRun st needed cb ch detReset
        (xs.takeWhile (fun v => decide (v < st + 5)))).2 = 0 ∧
      ((∀ v ∈ xs, v < st + 5) → (detRun st needed cb ch detReset xs).2 = 0) := by
  constructor
  · have hall : ∀ v ∈ xs.takeWhile (fun v => decide (v < st + 5)), v < st + 5 :=
      fun v hv => by simpa using List.mem_takeWhile_imp hv
    simp [detRun_noSound st needed cb ch detReset _ rfl hall]
  · intro hall
    simp [detRun_noSound st needed cb ch detReset xs rfl hall]

/-- Witness for C1 at `silenceThreshold = 20`, samples `[5, 30]` (loud sample
at position 2, the sample before it below the silence threshold). -/
theorem c1_sound_first_witness :
    (∀ v ∈ ([5, 30] : List ℚ).takeWhile (fun v => decide (v < 20 + 5)),
        v < 20) ∧
      (detRun 20 10 true true detReset
          (([5, 30] : List ℚ).takeWhile (fun v => decide (v < 20 + 5)))).2 = 0 ∧
        ((∀ v ∈ ([5, 30] : List ℚ), v < 20 + 5) →
          (detRun 20 10 true true detReset ([5, 30] : List ℚ)).2 = 0) :=
  ⟨by norm_num [List.takeWhile],
    c1_sound_first 20 10 true true [5, 30] (by norm_num [List.takeWhile])⟩

/-- C2.  One-shot invariant: over any sample sequence of one recording
session (which starts from `detReset`), `onSilenceDetected` fires at most
once, no matter how many further silent samples arrive. -/
theorem c2_one_shot (st : ℚ) (needed : Nat) (cb ch : Bool) (xs : List ℚ) :
    (detRun st needed cb ch detReset xs).2 ≤ 1 := by
  have h := detRun_count_le st needed cb ch detReset xs
  simpa using h

/-- C3, counterexample.  The claim says a sample in the hysteresis band
`[silenceThreshold, soundThreshold)` leaves the consecutive-silence counter
unchanged; but at `silenceThreshold = 20`, feeding the band sample `20` to a
state with counter `3` (and `soundEverDetected` true) resets the counter to
`0` instead of keeping it at `3`. -/
theorem c3_hysteresis_counterexample :
    (20 : ℚ) ≤ 20 ∧ (20 : ℚ) < 20 + 5 ∧
      (⟨3, true, false⟩ : DetState).hasSound = true ∧
      (detStep 20 15 true true ⟨3, true, false⟩ 20).1.counter = 0 ∧
      (detStep 20 15 true true ⟨3, true, false⟩ 20).1.counter ≠ 3 := by
  norm_num [detStep]

/-- C3, amended.  For a sample in `[silenceThreshold, soundThreshold)` and a
state with `soundEverDetected` true, the step *resets* the
consecutive-silence counter to 0 (exactly as a loud sample does) rather than
leaving it unchanged; it emits no signal and leaves the two flags unchanged. -/
theorem c3_hysteresis_band (st : ℚ) (needed : Nat) (cb ch : Bool)
    (s : DetState) (v : ℚ) (hs : s.hasSound = true) (h1 : st ≤ v)
    (h2 : v < st + 5) :
    detStep st needed cb ch s v = ({ s with counter := 0 }, false) := by
  obtain ⟨c, hsd, htr⟩ := s
  simp only at hs
  subst hs
  simp [detStep, not_le.2 h2, not_lt.2 h1]

/-- Witness for C3 (amended) at `silenceThreshold = 20`, band sample `22`,
counter `3`. -/
theorem c3_hysteresis_band_witness :
    (⟨3, true, false⟩ : DetState).hasSound = true ∧ (20 : ℚ) ≤ 22 ∧
      (22 : ℚ) < 20 + 5 ∧
      detStep 20 15 true true ⟨3, true, false⟩ 22 = (⟨0, true, false⟩, false) :=
  ⟨rfl, by norm_num, by norm_num,
    c3_hysteresis_band 20 15 true true ⟨3, true, false⟩ 22 rfl (by norm_num)
      (by norm_num)⟩

/-- C4, counterexample.  Scenario A claims the signal fires exactly once, at
sample 13; but with `silenceThreshold = 20`, `silenceDuration = 1000` ms and
100 ms sampling (`silenceChecksNeeded = 10`), the 13-sample sequence contains
only 8 consecutive silent samples after the last sound, so the code emits no
signal at all (even with a callback installed and a non-empty chunk buffer). -/
theorem c4_scenarioA_counterexample :
    (detRun 20 (silenceChecksNeeded 1000) true true detReset scenarioA).2 = 0 := by
  have h : silenceChecksNeeded 1000 = 10 := by
    norm_num [silenceChecksNeeded]
    decide
  rw [h]
  norm_num [scenarioA, detRun, detStep, detReset]

/-- C4, amended.  Scenario A on the code: no signal and no sound flag during
samples 1–2; the sound flag is set at sample 3; the consecutive-silence count
is 0 after sample 5 and begins at sample 6; by sample 13 it has reached only
8 (not 10), so no signal is emitted for the 13-sample sequence; appending one
more silent sample still yields no signal, and appending two more makes the
count reach 10 so that the signal fires exactly once, at sample 15. -/
theorem c4_scenarioA_amended :
    (detRun 20 (silenceChecksNeeded 1000) true true detReset
        (scenarioA.take 2)).2 = 0 ∧
      (detRun 20 (silenceChecksNeeded 1000) true true detReset
          (scenarioA.take 2)).1.hasSound = false ∧
      (detRun 20 (silenceChecksNeeded 1000) true true detReset
          (scenarioA.take 3)).1.hasSound = true ∧
      (detRun 20 (silenceChecksNeeded 1000) true true detReset
          (scenarioA.take 5)).1.counter = 0 ∧
      (detRun 20 (silenceChecksNeeded 1000) true true detReset
          (scenarioA.take 6)).1.counter = 1 ∧
      (detRun 20 (silenceChecksNeeded 1000) true true detReset
          (scenarioA.take 13)).1.counter = 8 ∧
      (detRun 20 (silenceChecksNeeded 1000) true true detReset
          (scenarioA.take 13)).2 = 0 ∧
      (detRun 20 (silenceChecksNeeded 1000) true true detReset
          (scenarioA ++ [5])).2 = 0 ∧
      (detRun 20 (silenceChecksNeeded 1000) true true detReset
          (scenarioA ++ [5, 5])).2 = 1 := by
  have h : silenceChecksNeeded 1000 = 10 := by
    norm_num [silenceChecksNeeded]
    decide
  rw [h]
  norm_num [scenarioA, detRun, detStep, detReset]

/-! ## AudioRecorder lifecycle state

Handles (`MediaStream`, `AudioContext`, `AnalyserNode`, interval and timeout
ids) are modelled by presence; `MediaRecorder` additionally carries whether
its state is `'inactive'`.  A blob is a byte list, the chunk buffer a list of
blobs. -/

inductive MRState where
  | recording
  | inactive
deriving Repr, DecidableEq

structure RecorderState where
  isRecording : Bool
  volumeCheckInterval : Bool
  silenceTimeout : Bool
  mediaRecorder : Option MRState
  stream : Bool
  audioContext : Bool
  analyser : Bool
  audioChunks : List (List Nat)
  hasSoundDetected : Bool
  silenceTriggered : Bool
deriving Repr, DecidableEq

/-- The resource-release actions performed by one `stopRecording()` call:
`clearInterval`, `clearTimeout`, `mediaRecorder.stop()`,
`track.stop()` on the stream's tracks, `audioContext.close()`. -/
structure Releases where
  clearedInterval : Bool
  clearedTimeout : Bool
  stoppedRecorder : Bool
  stoppedStream : Bool
  closedContext : Bool
deriving Repr, DecidableEq

def noReleases : Releases := ⟨false, false, false, false, false⟩

/-- Model of `AudioRecorder.stopRecording()`: each release is guarded by a null/state
check, and the handle is nulled (or driven to `'inactive'`) afterwards. -/
def stopRecording (r : RecorderState) : RecorderState × Releases :=
  -- this.isRecording = false
  let r := { r with isRecording := false }
  -- if (this.volumeCheckInterval) { clearInterval(...); ... = null }
  let (r, relInt) :=
    if r.volumeCheckInterval then ({ r with volumeCheckInterval := false }, true)
    else (r, false)
  -- if (this.silenceTimeout) { clearTimeout(...); ... = null }
  let (r, relTim) :=
    if r.silenceTimeout then ({ r with silenceTimeout := false }, true)
    else (r, false)
  -- if (this.mediaRecorder && this.mediaRecorder.state !== 'inactive') { stop() }
  let (r, relRec) :=
    if r.mediaRecorder = some MRState.recording then
      ({ r with mediaRecorder := some MRState.inactive }, true)
    else (r, false)
  -- if (this.stream) { tracks.forEach(stop); this.stream = null }
  let (r, relStr) :=
    if r.stream then ({ r with stream := false }, true) else (r, false)
  -- if (this.audioContext) { close(); this.audioContext = null }
  let (r, relCtx) :=
    if r.audioContext then ({ r with audioContext := false }, true)
    else (r, false)
  -- this.analyser = null
  ({ r with analyser := false }, ⟨relInt, relTim, relRec, relStr, relCtx⟩)

/-- Model of `AudioRecorder.getCurrentAudioBlob()`: null when no chunks were
collected, otherwise the concatenation of all chunks.  The recorder state is
returned unchanged to make the absence of mutation explicit. -/
def getCurrentAudioBlob (r : RecorderState) :
    RecorderState × Option (List Nat) :=
  if r.audioChunks.length = 0 then (r, none)
  else (r, some r.audioChunks.flatten)

/-! ## AudioRecorder constructor (configuration defaulting)

Each numeric option is filled in with `options.x || default`, so any *falsy*
provided value (for a number: 0) is replaced by the default. -/

structure RecorderOptions where
  silenceThreshold : Option ℚ
  silenceDuration : Option ℚ
  hasOnSilenceDetected : Bool
  hasOnAudioData : Bool
  hasOnVolumeChange : Bool
deriving Repr

/-- JavaScript `x || d` for an optional numeric option: `undefined` and the
falsy number `0` both yield the default. -/
def jsOrNum (x : Option ℚ) (d : ℚ) : ℚ :=
  match x with
  | none => d
  | some v => if v = 0 then d else v

structure RecorderConfig where
  silenceThreshold : ℚ
  silenceDuration : ℚ
deriving Repr, DecidableEq

/-- The numeric part of `new AudioRecorder(options)`:
`silenceThreshold = options.silenceThreshold || 20`,
`silenceDuration = options.silenceDuration || 1500`. -/
def mkRecorderConfig (o : RecorderOptions) : RecorderConfig :=
  ⟨jsOrNum o.silenceThreshold 20, jsOrNum o.silenceDuration 1500⟩

/-! ## Turn orchestrator (VoiceChatDigitalTwin)

State of the component that the verified control paths read or write:
`voiceState`, `isActive`, the re-entrancy flag `isProcessingRef`, the
safety-timeout handle `listeningTimeoutRef` (modelled by presence), the
speech-detection flag `hasDetectedSpeechRef`, the recorder instance
`audioRecorderRef`, and the text-input / transcript / conversation state. -/

inductive VState where
  | idle
  | listening
  | processing
  | speaking
deriving Repr, DecidableEq

inductive Role where
  | user
  | assistant
deriving Repr, DecidableEq

structure Message where
  role : Role
  content : List Char
deriving Repr, DecidableEq

structure OrchState where
  voiceState : VState
  isActive : Bool
  isProcessing : Bool
  listeningTimeout : Bool
  hasDetectedSpeech : Bool
  recorder : Option RecorderState
  textInput : List Char
  currentTranscript : List Char
  conversation : List Message
deriving Repr, DecidableEq

/-! ### JavaScript string primitives used by the orchestrator -/

/-- JavaScript whitespace as used by `String.prototype.trim` (the ASCII part,
which is all the transcription service produces). -/
def isJsWhitespace (c : Char) : Bool :=
  c = ' ' ∨ c = '\t' ∨ c = '\n' ∨ c = '\r'

/-- Model of `String.prototype.trim`. -/
def jsTrim (s : List Char) : List Char :=
  ((s.dropWhile isJsWhitespace).reverse.dropWhile isJsWhitespace).reverse

/-- A JavaScript `\w` word character: `[A-Za-z0-9_]`. -/
def isWordChar (c : Char) : Bool :=
  c.isAlpha ∨ c.isDigit ∨ c = '_'

/-- A `\b` word boundary against the character on the given side (`none` =
string edge). -/
def isBoundary : Option Char → Bool
  | none => true
  | some c => ¬ isWordChar c

/-- Does word `w` match at the head of `t`, with a `\b` boundary after it? -/
def matchWordHere (t w : List Char) : Bool :=
  w.isPrefixOf t ∧ isBoundary (t.drop w.length).head?

/-- Scan `t` for a `\b w \b` occurrence; `prev` is the character before the
current position. -/
def scanWord (prev : Option Char) (t w : List Char) : Bool :=
  match t with
  | [] => false
  | c :: rest =>
    (isBoundary prev ∧ matchWordHere (c :: rest) w) ∨ scanWord (some c) rest w

/-- Whether `\b w \b` matches somewhere in `t`. -/
def containsWholeWord (t w : List Char) : Bool :=
  scanWord none t w

/-- The stop-phrase set of
`userMessage.toLowerCase().match(/\b(stop|exit|quit|end|goodbye)\b/)`. -/
def stopWords : List (List Char) :=
  [['s', 't', 'o', 'p'],
   ['e', 'x', 'i', 't'],
   ['q', 'u', 'i', 't'],
   ['e', 'n', 'd'],
   ['g', 'o', 'o', 'd', 'b', 'y', 'e']]

/-- The stop-command test on a user message: lower-case the message and look
for a whole-word occurrence of one of the stop words. -/
def hasStopPhrase (msg : List Char) : Bool :=
  stopWords.any fun w => containsWholeWord (msg.map Char.toLower) w

/-! ### Orchestrator operations -/

/-- The effects of one `handleStop()` call (besides the state update):
whether the listening timeout was actually cleared, which recorder resources
were actually released, and that `ttsRef.current?.cancel()` was invoked. -/
structure StopFx where
  clearedTimeout : Bool
  recorderReleases : Releases
  ttsCancelCalled : Bool
deriving Repr, DecidableEq

/-- Model of `handleStop()`: deactivate, go `idle`, clear the re-entrancy flag, clear
the safety timeout if armed, stop the recorder if one exists, cancel TTS. -/
def handleStop (s : OrchState) : OrchState × StopFx :=
  -- setIsActive(false); setVoiceState('idle'); isProcessingRef.current = false
  let s := { s with isActive := false, voiceState := VState.idle,
                    isProcessing := false }
  -- if (listeningTimeoutRef.current) { clearTimeout(...); ... = null }
  let (s, clearedT) :=
    if s.listeningTimeout then ({ s with listeningTimeout := false }, true)
    else (s, false)
  -- audioRecorderRef.current?.stopRecording()  (optional chaining: a no-op
  -- when no recorder instance exists)
  let rel :=
    match s.recorder with
    | none => noReleases
    | some r => (stopRecording r).2
  -- ttsRef.current?.cancel()
  ({ s with recorder := s.recorder.map fun r => (stopRecording r).1 },
    ⟨clearedT, rel, true⟩)

/-- The audio blob the orchestrator reads at a silence signal:
`audioRecorderRef.current?.getCurrentAudioBlob()`. -/
def currentBlob (s : OrchState) : Option (List Nat) :=
  match s.recorder with
  | none => none
  | some r => (getCurrentAudioBlob r).2

/-- The synchronous head of `handleSilenceDetected()` up to the transcription
request: the re-entrancy guard, the minimum-size check on the buffered audio,
and — when processing goes ahead — setting the processing flag and state,
clearing the safety timeout and force-stopping the recorder.  The returned
Boolean says whether a processing cycle was started (i.e. whether the
transcription service will be contacted with the captured blob). -/
def handleSilenceDetectedPre (s : OrchState) : OrchState × Bool :=
  -- if (isProcessingRef.current) return
  if s.isProcessing then (s, false)
  else
    match currentBlob s with
    -- if (!audioBlob || audioBlob.size < 2000) return
    | none => (s, false)
    | some b =>
      if b.length < 2000 then (s, false)
      else
        -- isProcessingRef.current = true; hasDetectedSpeechRef.current = false
        -- setVoiceState('processing'); clearTimeout; stopRecording()
        let s := { s with isProcessing := true, hasDetectedSpeech := false,
                          voiceState := VState.processing,
                          listeningTimeout := false }
        let s := { s with recorder := s.recorder.map fun r => (stopRecording r).1 }
        (s, true)

/-- The 15-second safety timer callback in `startListening`: it re-checks the
state and the re-entrancy flag before delegating to `handleSilenceDetected`. -/
def safetyTimerFire (s : OrchState) : OrchState × Bool :=
  -- if (voiceState === 'listening' && !isProcessingRef.current) handleSilenceDetected()
  if s.voiceState = VState.listening ∧ ¬ s.isProcessing then
    handleSilenceDetectedPre s
  else (s, false)

/-- The synchronous head of `handleTextSubmit` up to the response request:
the empty-input and re-entrancy guards, then clearing the input, recording
the transcript, setting the processing flag and state, and appending the user
turn.  The returned Boolean says whether a processing cycle was started. -/
def handleTextSubmitPre (s : OrchState) : OrchState × Bool :=
  -- if (!textInput.trim() || isProcessingRef.current) return
  if jsTrim s.textInput = [] ∨ s.isProcessing then (s, false)
  else
    let userMessage := jsTrim s.textInput
    -- setTextInput(''); setCurrentTranscript(userMessage)
    -- isProcessingRef.current = true; setVoiceState('processing')
    let s := { s with textInput := [], currentTranscript := userMessage,
                      isProcessing := true, voiceState := VState.processing,
                      conversation :=
                        s.conversation ++ [⟨Role.user, userMessage⟩] }
    (s, true)

/-- The three triggers of the `listening → processing` transition. -/
inductive Trigger where
  | silence
  | timer
  | textSubmit
deriving Repr, DecidableEq

def triggerStep (s : OrchState) : Trigger → OrchState × Bool
  | Trigger.silence => handleSilenceDetectedPre s
  | Trigger.timer => safetyTimerFire s
  | Trigger.textSubmit => handleTextSubmitPre s

/-- Run a sequence of triggers, counting how many processing cycles start. -/
def triggerRun (s : OrchState) : List Trigger → OrchState × Nat
  | [] => (s, 0)
  | t :: ts =>
    let (s', started) := triggerStep s t
    let (sf, n) := triggerRun s' ts
    (sf, (if started then 1 else 0) + n)

/-- The continuation of `handleSilenceDetected` once transcription has
returned text: trim it, publish it to the transcript/text box, and either
take the stop-phrase exit (`handleStop()` and return, never contacting the
response service) or append the user turn and contact the response service.
The Boolean records whether `/api/voice/llm` was invoked. -/
def handleTranscript (s : OrchState) (raw : List Char) :
    OrchState × Bool × StopFx :=
  -- const userMessage = sttData.text.trim()
  let userMessage := jsTrim raw
  -- setCurrentTranscript(userMessage); setTextInput(userMessage)
  let s := { s with currentTranscript := userMessage,
                    textInput := userMessage }
  -- if (userMessage.toLowerCase().match(/\b(stop|exit|quit|end|goodbye)\b/))
  if hasStopPhrase userMessage then
    -- handleStop(); return
    let (s', fx) := handleStop s
    (s', false, fx)
  else
    -- append the user turn, then await fetch('/api/voice/llm', ...)
    let s := { s with conversation :=
                        s.conversation ++ [⟨Role.user, userMessage⟩] }
    (s, true, ⟨false, noReleases, false⟩)

/-! ### Orchestrator lemmas -/

/-- With the re-entrancy flag set, each of the three triggers is a no-op. -/
theorem triggerStep_processing (s : OrchState) (t : Trigger)
    (h : s.isProcessing = true) : triggerStep s t = (s, false) := by
  cases t <;>
    simp [triggerStep, handleSilenceDetectedPre, safetyTimerFire,
      handleTextSubmitPre, h]

/-- With the re-entrancy flag set, no trigger sequence starts any cycle. -/
theorem triggerRun_processing (s : OrchState) (ts : List Trigger)
    (h : s.isProcessing = true) : triggerRun s ts = (s, 0) := by
  induction ts with
  | nil => rfl
  | cons t ts ih => simp [triggerRun, triggerStep_processing s t h, ih]

/-- C5.  Re-entrancy guard: while `isProcessingRef` is set, the silence
callback, the 15-second safety timer and a manual text submit are all no-ops
(state unchanged, no cycle started), and hence along any interleaving of
these triggers no further processing cycle starts: at most the one in-flight
cycle exists. -/
theorem c5_reentrancy_guard (s : OrchState) (ts : List Trigger)
    (h : s.isProcessing = true) :
    handleSilenceDetectedPre s = (s, false) ∧
      safetyTimerFire s = (s, false) ∧
      handleTextSubmitPre s = (s, false) ∧
      (triggerRun s ts).2 = 0 := by
  refine ⟨?_, ?_, ?_, ?_⟩
  · simpa [triggerStep] using triggerStep_processing s Trigger.silence h
  · simpa [triggerStep] using triggerStep_processing s Trigger.timer h
  · simpa [triggerStep] using triggerStep_processing s Trigger.textSubmit h
  · simp [triggerRun_processing s ts h]

/-- A state in the middle of a processing cycle, used to witness C5. -/
def procState : OrchState :=
  ⟨VState.processing, true, true, false, false, none, [], [], []⟩

/-- Witness for C5: in a concrete mid-processing state, the silence signal, a
timer expiry and a text submission all do nothing. -/
theorem c5_reentrancy_guard_witness :
    procState.isProcessing = true ∧
      (handleSilenceDetectedPre procState = (procState, false) ∧
        safetyTimerFire procState = (procState, false) ∧
        handleTextSubmitPre procState = (procState, false) ∧
        (triggerRun procState
            [Trigger.silence, Trigger.timer, Trigger.textSubmit]).2 = 0) :=
  ⟨rfl, c5_reentrancy_guard procState
    [Trigger.silence, Trigger.timer, Trigger.textSubmit] rfl⟩

/-- C6.  Undersized-capture policy: when the buffered blob is absent or
smaller than 2000 bytes, `handleSilenceDetected` returns without starting a
cycle: the state (in particular `voiceState` and the processing flag) is
untouched and neither transcription nor response service is contacted. -/
theorem c6_undersized_capture (s : OrchState)
    (h : ∀ b ∈ currentBlob s, b.length < 2000) :
    handleSilenceDetectedPre s = (s, false) := by
  by_cases hp : s.isProcessing
  · simp [handleSilenceDetectedPre, hp]
  · rcases hb : currentBlob s with _ | b
    · simp [handleSilenceDetectedPre, hp, hb]
    · have hlen : b.length < 2000 := h b (by simp [hb])
      simp [handleSilenceDetectedPre, hp, hb, hlen]

/-- A recorder holding a single 1500-byte chunk (spec Scenario C). -/
def rec1500 : RecorderState :=
  ⟨true, true, false, some MRState.recording, true, true, true,
    [List.replicate 1500 0], true, false⟩

/-- A listening orchestrator over that recorder. -/
def listening1500 : OrchState :=
  ⟨VState.listening, true, false, true, true, some rec1500, [], [], []⟩

/-- Witness for C6: a 1500-byte capture is silently discarded. -/
theorem c6_undersized_capture_witness :
    (∀ b ∈ currentBlob listening1500, b.length < 2000) ∧
      handleSilenceDetectedPre listening1500 = (listening1500, false) := by
  have h : ∀ b ∈ currentBlob listening1500, b.length < 2000 := by
    have hcb : currentBlob listening1500 =
        some (List.replicate 1500 (0 : Nat)) := by
      simp only [currentBlob, listening1500, getCurrentAudioBlob, rec1500,
        List.length_cons, List.length_nil, List.flatten_cons,
        List.flatten_nil, List.append_nil]
      norm_num
    rw [hcb]
    intro b hb
    rw [Option.mem_some_iff] at hb
    subst hb
    rw [List.length_replicate]
    norm_num
  exact ⟨h, c6_undersized_capture listening1500 h⟩

/-! ### Whole-word matching is invariant under trimming -/

theorem toNat_ofNat_valid (n : Nat) (h : n < 55296) :
    (Char.ofNat n).toNat = n := by
  have hv : n.isValidChar := Or.inl h
  simp [Char.ofNat, hv, Char.ofNatAux, Char.toNat, UInt32.toNat,
    BitVec.toNat_ofNatLt]

/-- Whitespace characters are not word characters. -/
theorem not_isWordChar_of_ws (c : Char) (h : isJsWhitespace c = true) :
    isWordChar c = false := by
  simp only [isJsWhitespace, decide_eq_true_eq] at h
  rcases h with rfl | rfl | rfl | rfl <;> decide

/-- Word characters are not whitespace. -/
theorem not_ws_of_isWordChar (c : Char) (h : isWordChar c = true) :
    isJsWhitespace c = false := by
  by_contra hc
  rw [Bool.not_eq_false] at hc
  rw [not_isWordChar_of_ws c hc] at h
  exact Bool.false_ne_true h

/-- Lower-casing preserves whitespace-ness. -/
theorem isJsWhitespace_toLower (c : Char) :
    isJsWhitespace (Char.toLower c) = isJsWhitespace c := by
  have hdef : Char.toLower c =
      if c.toNat ≥ 65 ∧ c.toNat ≤ 90 then Char.ofNat (c.toNat + 32) else c := rfl
  rw [hdef]
  split_ifs with h
  · have hval : (Char.ofNat (c.toNat + 32)).toNat = c.toNat + 32 :=
      toNat_ofNat_valid _ (by omega)
    have l1 : isJsWhitespace (Char.ofNat (c.toNat + 32)) = false := by
      simp only [isJsWhitespace, decide_eq_false_iff_not]
      push_neg
      refine ⟨?_, ?_, ?_, ?_⟩ <;> intro he <;>
        · have h2 := congrArg Char.toNat he
          rw [hval] at h2
          simp at h2
          all_goals omega
    have l2 : isJsWhitespace c = false := by
      simp only [isJsWhitespace, decide_eq_false_iff_not]
      push_neg
      refine ⟨?_, ?_, ?_, ?_⟩ <;> intro he <;>
        · have h2 := congrArg Char.toNat he
          simp at h2
          all_goals omega
    rw [l1, l2]
  · rfl

/-- Characterization of a head match: the word is a prefix and is followed by
a boundary. -/
theorem matchWordHere_iff (t w : List Char) :
    matchWordHere t w = true ↔
      ∃ post, t = w ++ post ∧ isBoundary post.head? = true := by
  simp only [matchWordHere, Bool.and_eq_true, decide_eq_true_eq]
  constructor
  · rintro ⟨hpre, hb⟩
    rw [ List.isPrefixOf_iff_prefix] at hpre
    obtain ⟨post, hp⟩ := hpre
    subst hp
    exact ⟨post, rfl, by rwa [List.drop_left] at hb⟩
  · rintro ⟨post, rfl, hb⟩
    refine ⟨?_, ?_⟩
    · rw [ List.isPrefixOf_iff_prefix]
      exact ⟨post, rfl⟩
    · rwa [List.drop_left]

theorem getLast?_cons_or (c : Char) (l : List Char) (p : Option Char) :
    ((c :: l).getLast?).or p = (l.getLast?).or (some c) := by
  cases l with
  | nil => simp
  | cons d m =>
    rw [List.getLast?_cons_cons]
    obtain ⟨y, hy⟩ := Option.isSome_iff_exists.1
      (List.getLast?_isSome.2 (by simp : (d :: m) ≠ []))
    rw [hy]
    rfl

/-- Characterization of `scanWord`: there is an occurrence of `w` with a word
boundary on each side; the character preceding the scanned region is `prev`. -/
theorem scanWord_iff (w : List Char) (hw : w ≠ []) (t : List Char) :
    ∀ prev : Option Char,
      scanWord prev t w = true ↔
        ∃ pre post, t = pre ++ w ++ post ∧
          isBoundary ((pre.getLast?).or prev) = true ∧
          isBoundary post.head? = true := by
  induction t with
  | nil =>
    intro prev
    simp only [scanWord]
    constructor
    · intro h
      exact absurd h (by simp)
    · rintro ⟨pre, post, ht, -, -⟩
      exfalso
      rcases w with _ | ⟨c, w'⟩
      · exact hw rfl
      · have := congrArg List.length ht
        simp at this
        omega
  | cons c rest ih =>
    intro prev
    simp only [scanWord, Bool.or_eq_true, Bool.and_eq_true, decide_eq_true_eq]
    constructor
    · rintro (⟨hb, hm⟩ | hrec)
      · obtain ⟨post, hp, hbp⟩ := (matchWordHere_iff _ w).1 hm
        exact ⟨[], post, by simpa using hp, by simpa using hb, hbp⟩
      · obtain ⟨pre, post, ht, hb, hp⟩ := (ih (some c)).1 hrec
        refine ⟨c :: pre, post, by simp [ht], ?_, hp⟩
        rwa [getLast?_cons_or]
    · rintro ⟨pre, post, ht, hb, hp⟩
      rcases pre with _ | ⟨p0, pre'⟩
      · left
        simp only [List.nil_append] at ht
        refine ⟨by simpa using hb, ?_⟩
        exact (matchWordHere_iff _ w).2 ⟨post, ht, hp⟩
      · right
        simp only [List.cons_append] at ht
        injection ht with h1 h2
        subst h1
        apply (ih (some c)).2
        refine ⟨pre', post, h2, ?_, hp⟩
        rwa [getLast?_cons_or] at hb


/-- Dropping a matching prefix stops at the head of a block whose first
character does not match. -/
theorem dropWhile_append_cons (p : Char → Bool) (a : List Char) (b0 : Char)
    (b' : List Char) (h : p b0 = false) :
    List.dropWhile p (a ++ b0 :: b') = List.dropWhile p a ++ b0 :: b' := by
  rw [List.dropWhile_append]
  split_ifs with he
  · rw [List.isEmpty_iff] at he
    rw [he, List.dropWhile_cons, h]
    simp
  · rfl

/-- A whole-word occurrence (the word being made of word characters only)
survives `jsTrim`: trimming removes only whitespace at the two ends, which
cannot overlap the occurrence and preserves both boundaries. -/
theorem containsWholeWord_jsTrim (t w : List Char) (hw : w ≠ [])
    (hword : w.all isWordChar = true)
    (h : containsWholeWord t w = true) :
    containsWholeWord (jsTrim t) w = true := by
  rw [containsWholeWord, scanWord_iff w hw] at h
  rw [containsWholeWord, scanWord_iff w hw]
  obtain ⟨pre, post, ht, hb, hp⟩ := h
  obtain ⟨w0, w', rfl⟩ : ∃ w0 w', w = w0 :: w' := by
    rcases w with _ | ⟨w0, w'⟩
    · exact absurd rfl hw
    · exact ⟨w0, w', rfl⟩
  rw [List.all_eq_true] at hword
  have hw0ws : isJsWhitespace w0 = false :=
    not_ws_of_isWordChar w0 (hword w0 (by simp))
  -- the leading trim removes whitespace from `pre` only
  have hu : List.dropWhile isJsWhitespace t =
      List.dropWhile isJsWhitespace pre ++ (w0 :: w') ++ post := by
    rw [ht]
    rw [show pre ++ (w0 :: w') ++ post = pre ++ (w0 :: (w' ++ post)) by simp]
    rw [dropWhile_append_cons _ _ _ _ hw0ws]
    simp
  -- the word read backwards starts with its (word-character) last letter
  obtain ⟨wl, wrest, hwrev⟩ : ∃ wl wrest, (w0 :: w').reverse = wl :: wrest :=
    List.exists_cons_of_ne_nil (by simp)
  have hwl : isWordChar wl = true := by
    apply hword
    rw [← List.mem_reverse, hwrev]
    simp
  -- the trailing trim removes whitespace from `post` only
  have hv : List.dropWhile isJsWhitespace
        (List.dropWhile isJsWhitespace t).reverse
      = List.dropWhile isJsWhitespace post.reverse ++ (w0 :: w').reverse ++
          (List.dropWhile isJsWhitespace pre).reverse := by
    rw [hu, List.reverse_append, List.reverse_append, hwrev, List.cons_append]
    rw [dropWhile_append_cons _ _ _ _ (not_ws_of_isWordChar wl hwl)]
    simp [hwrev]
  refine ⟨List.dropWhile isJsWhitespace pre,
    (List.dropWhile isJsWhitespace post.reverse).reverse, ?_, ?_, ?_⟩
  · -- jsTrim t decomposes around the occurrence
    rw [jsTrim, hv]
    simp
  · -- the boundary before the occurrence survives
    rw [Option.or_none] at hb ⊢
    by_cases hpe : List.dropWhile isJsWhitespace pre = []
    · rw [hpe]
      rfl
    · obtain ⟨y, hy⟩ :=
        Option.isSome_iff_exists.1 (List.getLast?_isSome.2 hpe)
      have hpre : pre.getLast? = some y := by
        conv_lhs => rw [← List.takeWhile_append_dropWhile
          (p := isJsWhitespace) (l := pre)]
        rw [List.getLast?_append, hy]
        rfl
      rw [hy]
      rw [hpre] at hb
      exact hb
  · -- the boundary after the occurrence survives
    have hpref : (List.dropWhile isJsWhitespace post.reverse).reverse <+:
        post := by
      have h1 : (List.dropWhile isJsWhitespace post.reverse).reverse <+:
          post.reverse.reverse :=
        List.reverse_prefix.2 (List.dropWhile_suffix _)
      rwa [List.reverse_reverse] at h1
    by_cases hpe : (List.dropWhile isJsWhitespace post.reverse).reverse = []
    · rw [hpe]
      rfl
    · obtain ⟨z, zs, hz⟩ := List.exists_cons_of_ne_nil hpe
      obtain ⟨rest, hrest⟩ := hpref
      have hhead : post.head? = some z := by
        rw [← hrest, hz]
        rfl
      rw [hz]
      rw [hhead] at hp
      exact hp

/-- Trimming commutes with lower-casing (lower-casing preserves
whitespace-ness). -/
theorem jsTrim_map_toLower (s : List Char) :
    (jsTrim s).map Char.toLower = jsTrim (s.map Char.toLower) := by
  have hws : isJsWhitespace ∘ Char.toLower = isJsWhitespace :=
    funext isJsWhitespace_toLower
  rw [jsTrim, jsTrim, List.dropWhile_map, hws, ← List.map_reverse,
    List.dropWhile_map, hws, ← List.map_reverse]

/-- A stop phrase in the raw transcription is still found after the
orchestrator trims it. -/
theorem hasStopPhrase_jsTrim (raw : List Char)
    (h : hasStopPhrase raw = true) :
    hasStopPhrase (jsTrim raw) = true := by
  rw [hasStopPhrase, List.any_eq_true] at h ⊢
  obtain ⟨w, hwmem, hcw⟩ := h
  refine ⟨w, hwmem, ?_⟩
  rw [jsTrim_map_toLower]
  have hmem := hwmem
  simp only [stopWords, List.mem_cons, List.not_mem_nil, or_false] at hmem
  rcases hmem with rfl | rfl | rfl | rfl | rfl <;>
    exact containsWholeWord_jsTrim _ _ (by decide) (by decide) hcw


/-! ### Teardown and accessor lemmas -/

/-- After `stopRecording` the flag `isRecording` is false. -/
theorem stopRecording_isRecording (r : RecorderState) :
    (stopRecording r).1.isRecording = false := by
  obtain ⟨ir, vci, sto, mr, strm, ctx, an, ch, hsd, str⟩ := r
  rcases vci <;> rcases sto <;> rcases mr with _ | ⟨_ | _⟩ <;> rcases strm <;>
    rcases ctx <;> simp [stopRecording]

/-- A second `stopRecording` releases nothing and changes nothing: every
handle was nulled (or driven to `'inactive'`) by the first call and every
release is guarded. -/
theorem stopRecording_idem (r : RecorderState) :
    stopRecording (stopRecording r).1 = ((stopRecording r).1, noReleases) := by
  obtain ⟨ir, vci, sto, mr, strm, ctx, an, ch, hsd, str⟩ := r
  rcases vci <;> rcases sto <;> rcases mr with _ | ⟨_ | _⟩ <;> rcases strm <;>
    rcases ctx <;> simp [stopRecording, noReleases]

/-- What one `handleStop` guarantees about the resulting state and effects. -/
theorem handleStop_spec (s : OrchState) :
    (handleStop s).1.voiceState = VState.idle ∧
      (handleStop s).1.isActive = false ∧
      (handleStop s).1.isProcessing = false ∧
      (handleStop s).1.listeningTimeout = false ∧
      (∀ r ∈ (handleStop s).1.recorder, r.isRecording = false) ∧
      (handleStop s).2.ttsCancelCalled = true := by
  obtain ⟨vs, act, pr, lt, hds, rec, ti, ct, conv⟩ := s
  rcases lt <;> rcases rec with _ | r <;>
    simp [handleStop, stopRecording_isRecording]

/-- A second `handleStop` clears no timeout, releases no recorder resource,
and leaves the state exactly as the first left it (it still calls the
idempotent `ttsRef.current?.cancel()`). -/
theorem handleStop_idem (s : OrchState) :
    handleStop (handleStop s).1 =
      ((handleStop s).1, ⟨false, noReleases, true⟩) := by
  obtain ⟨vs, act, pr, lt, hds, rec, ti, ct, conv⟩ := s
  rcases lt <;> rcases rec with _ | r <;>
    simp [handleStop, stopRecording_idem]

/-! ### Claim theorems C7-C10 -/

/-- C7.  Stop-phrase handling: when the (trimmed) transcription result
contains one of the whole words stop/exit/quit/end/goodbye, matched
case-insensitively, the orchestrator takes the `handleStop` exit: it goes to
`idle`, deactivates, clears the processing flag and the listening timer,
stops any recorder, cancels speech playback, and never contacts the
response-generation service. -/
theorem c7_stop_phrase (s : OrchState) (raw : List Char)
    (h : hasStopPhrase raw = true) :
    (handleTranscript s raw).2.1 = false ∧
      (handleTranscript s raw).1.voiceState = VState.idle ∧
      (handleTranscript s raw).1.isActive = false ∧
      (handleTranscript s raw).1.isProcessing = false ∧
      (handleTranscript s raw).1.listeningTimeout = false ∧
      (∀ r ∈ (handleTranscript s raw).1.recorder, r.isRecording = false) ∧
      (handleTranscript s raw).2.2.ttsCancelCalled = true := by
  have htrim : hasStopPhrase (jsTrim raw) = true := hasStopPhrase_jsTrim raw h
  have hs := handleStop_spec
    { s with currentTranscript := jsTrim raw, textInput := jsTrim raw }
  simp only [handleTranscript, htrim, if_true]
  exact ⟨trivial, hs.1, hs.2.1, hs.2.2.1, hs.2.2.2.1, hs.2.2.2.2.1,
    hs.2.2.2.2.2⟩

/-- The transcription "please stop now" of spec Scenario D. -/
def pleaseStopNow : List Char :=
  ['p', 'l', 'e', 'a', 's', 'e', ' ', 's', 't', 'o', 'p', ' ', 'n', 'o', 'w']

/-- Witness for C7: "please stop now" in the mid-processing state shuts the
conversation down without a response-service call. -/
theorem c7_stop_phrase_witness :
    hasStopPhrase pleaseStopNow = true ∧
      ((handleTranscript procState pleaseStopNow).2.1 = false ∧
        (handleTranscript procState pleaseStopNow).1.voiceState = VState.idle) := by
  have h : hasStopPhrase pleaseStopNow = true := by decide
  have hc := c7_stop_phrase procState pleaseStopNow h
  exact ⟨h, hc.1, hc.2.1⟩

/-- C8.  Idempotent teardown: a second `stopRecording()` on an
already-stopped recorder releases no stream, context, interval or timeout and
leaves the recorder unchanged; and a second orchestrator `handleStop()` in
immediate succession likewise clears no timer, performs no recorder release,
and leaves the orchestrator state as the first call left it.  Both operations
are total functions, so no exception path exists. -/
theorem c8_idempotent_teardown (r : RecorderState) (s : OrchState) :
    stopRecording (stopRecording r).1 = ((stopRecording r).1, noReleases) ∧
      handleStop (handleStop s).1 =
        ((handleStop s).1, ⟨false, noReleases, true⟩) :=
  ⟨stopRecording_idem r, handleStop_idem s⟩

/-- C9.  `getCurrentAudioBlob()` returns `null` exactly when no chunks have
been collected, otherwise the concatenation of all collected chunks, and it
does not mutate the recorder state. -/
theorem c9_getCurrentAudioBlob (r : RecorderState) :
    getCurrentAudioBlob r =
      (r, if r.audioChunks = [] then none
          else some r.audioChunks.flatten) ∧
      ((getCurrentAudioBlob r).2 = none ↔ r.audioChunks = []) := by
  constructor
  · rcases hch : r.audioChunks with _ | ⟨c, cs⟩ <;>
      simp [getCurrentAudioBlob, hch]
  · rcases hch : r.audioChunks with _ | ⟨c, cs⟩ <;>
      simp [getCurrentAudioBlob, hch]

/-- C10.  Constructor defaulting: every falsy numeric option is replaced by
its default (`silenceThreshold = 0` yields 20, `silenceDuration = 0` yields
1500), and no option choice can configure a zero threshold or duration. -/
theorem c10_constructor_defaults :
    (mkRecorderConfig ⟨some 0, none, false, false, false⟩).silenceThreshold
        = 20 ∧
      (mkRecorderConfig ⟨none, some 0, false, false, false⟩).silenceDuration
        = 1500 ∧
      ∀ o : RecorderOptions,
        (mkRecorderConfig o).silenceThreshold ≠ 0 ∧
          (mkRecorderConfig o).silenceDuration ≠ 0 := by
  refine ⟨by simp [mkRecorderConfig, jsOrNum], by simp [mkRecorderConfig, jsOrNum], ?_⟩
  intro o
  constructor
  · rcases hx : o.silenceThreshold with _ | v
    · simp [mkRecorderConfig, jsOrNum, hx]
    · simp only [mkRecorderConfig, jsOrNum, hx]
      split_ifs with hv
      · norm_num
      · exact hv
  · rcases hx : o.silenceDuration with _ | v
    · simp [mkRecorderConfig, jsOrNum, hx]
    · simp only [mkRecorderConfig, jsOrNum, hx]
      split_ifs with hv
      · norm_num
      · exact hv

end DigitalTwin
